import Mathlib

/-!
Verification development for the skriptor transcription worker.

The definitions below are a shallow embedding of the worker's job pipeline
and of its speaker-segment merger:
  * `createSpeakerSegments` embeds
    `TranscriptionService._create_speaker_segments`
    (src/transcription_service.py, lines 72-104); the identical inline loop
    appears in worker.py lines 196-226.
  * `processTranscriptionJob` embeds `JobProcessor.process_transcription_job`
    (src/job_processor.py) together with the helpers it calls; external
    collaborators (MinIO download, Groq API, whisperx, Redis failures) are
    supplied through an environment record `Env`.
  * `workerIteration` embeds one iteration of the stand-alone loop in
    worker.py.
Timestamps (Python floats) are modelled as rationals: the core logic only
copies them, never computes with them.
-/

namespace Skriptor

/-- A word entry as produced by whisper/whisperx: dict with keys
`word`, `start`, `end` and optional `speaker`. -/
structure Word where
  word : String
  start : Rat
  stop : Rat
  speaker : Option String
deriving DecidableEq, Repr

/-- A pipeline segment dict.  Raw transcription segments carry `words`;
merged chunks carry empty `words`.  `speaker = none` models a dict in which
the `speaker` key is absent (or `None`). -/
structure PSeg where
  text : String
  start : Option Rat
  stop : Option Rat
  speaker : Option String
  words : List Word
deriving DecidableEq, Repr

/-- The `current_chunk` dict of `_create_speaker_segments`:
`{"text": "", "start": None, "end": None, "speaker": None}`. -/
structure Chunk where
  text : String
  start : Option Rat
  stop : Option Rat
  speaker : Option String
deriving DecidableEq, Repr

def emptyChunk : Chunk := ⟨"", none, none, none⟩

/-- `current_chunk["text"] += " " + word["word"] if current_chunk["text"] else word["word"]`:
Python string truthiness means the separator is added only when the
accumulated text is non-empty. -/
def addWordText (t w : String) : String :=
  if t = "" then w else t ++ " " ++ w

/-- Adding one word to the current chunk (the unconditional part of the
inner loop body): set `start` if still `None`, overwrite `end` and
`speaker`, extend `text`. -/
def chunkAdd (c : Chunk) (w : Word) : Chunk :=
  { text := addWordText c.text w.word
    start := match c.start with
      | none => some w.start
      | some s => some s
    stop := some w.stop
    speaker := w.speaker }

/-- `if current_chunk["text"]: new_segments.append(current_chunk)`. -/
def flushChunk (c : Chunk) (acc : List Chunk) : List Chunk :=
  if c.text ≠ "" then acc ++ [c] else acc

/-- One iteration of the inner `for word in words` loop.  State is
(current_chunk, current_speaker, new_segments).  When the speaker-change
test fires, the current chunk is flushed (if non-empty) and replaced by a
fresh one; the word is then added to the (possibly fresh) chunk and
`current_speaker` is overwritten. -/
def processWord (st : Chunk × Option String × List Chunk) (w : Word) :
    Chunk × Option String × List Chunk :=
  if st.2.1 ≠ none ∧ w.speaker ≠ st.2.1 then
    (chunkAdd emptyChunk w, w.speaker, flushChunk st.1 st.2.2)
  else
    (chunkAdd st.1 w, w.speaker, st.2.2)

/-- One iteration of the outer `for segment in original_segments` loop:
a fresh `current_chunk` at segment start, the trailing flush at segment
end; `current_speaker` persists across segments. -/
def processSegment (st : Option String × List Chunk) (s : PSeg) :
    Option String × List Chunk :=
  let r := s.words.foldl processWord (emptyChunk, st.1, st.2)
  (r.2.1, flushChunk r.1 r.2.2)

/-- `_create_speaker_segments` restricted to its segment-list content:
`current_speaker = None` initially, `new_segments = []`. -/
def createSpeakerSegments (segs : List PSeg) : List Chunk :=
  (segs.foldl processSegment (none, [])).2

/-- Convert a merged chunk back into a pipeline segment dict
(`{"text":…, "start":…, "end":…, "speaker":…}`, no `words`). -/
def chunkToPSeg (c : Chunk) : PSeg :=
  ⟨c.text, c.start, c.stop, c.speaker, []⟩

/-! ## Run decomposition of the merger

The merger starts a new chunk exactly when the previous word's speaker is
not `None` and the current word's speaker differs (`current_speaker is not
None and speaker != current_speaker`), and additionally flushes at every
source-segment boundary.  `runsAcc`/`wordRuns` compute the corresponding
partition of one segment's word list into maximal runs. -/

/-- Maximal runs of one segment's word list under the merger's
speaker-change test.  `cur` is the run built so far (non-empty), `lastW`
its most recent word. -/
def runsAcc (cur : List Word) (lastW : Word) : List Word → List (List Word)
  | [] => [cur]
  | w :: ws =>
    if lastW.speaker ≠ none ∧ w.speaker ≠ lastW.speaker then
      cur :: runsAcc [w] w ws
    else
      runsAcc (cur ++ [w]) w ws

def wordRuns : List Word → List (List Word)
  | [] => []
  | w :: ws => runsAcc [w] w ws

/-- Text accumulated over a run, exactly as the chunk accumulates it. -/
def joinWords (ws : List Word) : String :=
  (ws.map Word.word).foldl addWordText ""

/-- The chunk the merger builds from one run of words. -/
def chunkOfWords (ws : List Word) : Chunk :=
  ws.foldl chunkAdd emptyChunk

/-- The chunk a run contributes to the output: dropped when its
accumulated text is empty. -/
def chunkOfRun (r : List Word) : Option Chunk :=
  if joinWords r = "" then none else some (chunkOfWords r)

/-- Output chunks contributed by one source segment. -/
def segChunks (ws : List Word) : List Chunk :=
  (wordRuns ws).filterMap chunkOfRun

/-- Number of output segments contributed by one source segment: maximal
runs whose accumulated text is non-empty. -/
def runCount (ws : List Word) : Nat :=
  ((wordRuns ws).filter (fun r => decide (joinWords r ≠ ""))).length

/-- Recursive description of the inner word loop continued from an
arbitrary mid-run state (current chunk `c`, current speaker `cur`),
followed by the trailing flush. -/
def mergeCont (c : Chunk) (cur : Option String) : List Word → List Chunk
  | [] => flushChunk c []
  | w :: ws =>
    if cur ≠ none ∧ w.speaker ≠ cur then
      flushChunk c [] ++ mergeCont (chunkAdd emptyChunk w) w.speaker ws
    else
      mergeCont (chunkAdd c w) w.speaker ws

/-- The speaker state after a word list (`current_speaker` is overwritten
by every word). -/
def finalSpeaker (cur : Option String) (ws : List Word) : Option String :=
  ws.foldl (fun _ w => w.speaker) cur

theorem flushChunk_eq_append (c : Chunk) (acc : List Chunk) :
    flushChunk c acc = acc ++ flushChunk c [] := by
  unfold flushChunk; split <;> simp

theorem processWord_apply (c : Chunk) (cur : Option String)
    (acc : List Chunk) (w : Word) :
    processWord (c, cur, acc) w =
      if cur ≠ none ∧ w.speaker ≠ cur then
        (chunkAdd emptyChunk w, w.speaker, flushChunk c acc)
      else
        (chunkAdd c w, w.speaker, acc) := rfl

theorem foldl_processWord_speaker (ws : List Word) (c : Chunk)
    (cur : Option String) (acc : List Chunk) :
    (ws.foldl processWord (c, cur, acc)).2.1 = finalSpeaker cur ws := by
  induction ws generalizing c cur acc with
  | nil => rfl
  | cons w ws ih =>
    show ((w :: ws).foldl processWord (c, cur, acc)).2.1 = _
    rw [List.foldl_cons]
    unfold processWord
    dsimp only
    split <;> simpa [finalSpeaker] using ih _ _ _

theorem foldl_processWord_flush (ws : List Word) (c : Chunk)
    (cur : Option String) (acc : List Chunk) :
    flushChunk (ws.foldl processWord (c, cur, acc)).1
        (ws.foldl processWord (c, cur, acc)).2.2 =
      acc ++ mergeCont c cur ws := by
  induction ws generalizing c cur acc with
  | nil => exact flushChunk_eq_append c acc
  | cons w ws ih =>
    rw [List.foldl_cons, processWord_apply]
    simp only [mergeCont]
    by_cases h : cur ≠ none ∧ w.speaker ≠ cur
    · rw [if_pos h, if_pos h, ih, flushChunk_eq_append c acc,
        List.append_assoc]
    · rw [if_neg h, if_neg h, ih]

theorem foldl_chunkAdd_text (ws : List Word) (c : Chunk) :
    (ws.foldl chunkAdd c).text = (ws.map Word.word).foldl addWordText c.text := by
  induction ws generalizing c with
  | nil => rfl
  | cons w ws ih => simpa [chunkAdd] using ih (chunkAdd c w)

theorem chunkOfWords_text (ws : List Word) :
    (chunkOfWords ws).text = joinWords ws :=
  foldl_chunkAdd_text ws emptyChunk

theorem mergeCont_chunkOfWords (ws c0 : List Word) (lastW : Word) :
    mergeCont (chunkOfWords c0) lastW.speaker ws =
      (runsAcc c0 lastW ws).filterMap chunkOfRun := by
  induction ws generalizing c0 lastW with
  | nil =>
    show flushChunk (chunkOfWords c0) [] = _
    unfold runsAcc
    rw [List.filterMap_cons]
    unfold chunkOfRun flushChunk
    rw [chunkOfWords_text]
    split <;> split <;> simp_all
  | cons w ws ih =>
    unfold mergeCont runsAcc
    split
    · rw [List.filterMap_cons]
      have h1 : chunkAdd emptyChunk w = chunkOfWords [w] := rfl
      rw [h1, ih [w] w]
      unfold chunkOfRun flushChunk
      rw [chunkOfWords_text]
      split <;> split <;> simp_all
    · have h1 : chunkAdd (chunkOfWords c0) w = chunkOfWords (c0 ++ [w]) := by
        unfold chunkOfWords
        rw [List.foldl_append]
        rfl
      rw [h1, ih (c0 ++ [w]) w]

theorem mergeCont_empty (cur : Option String) (ws : List Word) :
    mergeCont emptyChunk cur ws = segChunks ws := by
  cases ws with
  | nil => rfl
  | cons w ws =>
    unfold mergeCont segChunks wordRuns
    have h1 : chunkAdd emptyChunk w = chunkOfWords [w] := rfl
    split
    · show flushChunk emptyChunk [] ++ _ = _
      rw [show flushChunk emptyChunk [] = [] from rfl, List.nil_append,
        h1, mergeCont_chunkOfWords ws [w] w]
    · rw [h1, mergeCont_chunkOfWords ws [w] w]

theorem processSegment_eq (cur : Option String) (acc : List Chunk) (s : PSeg) :
    processSegment (cur, acc) s =
      (finalSpeaker cur s.words, acc ++ segChunks s.words) := by
  unfold processSegment
  dsimp only
  rw [foldl_processWord_speaker, foldl_processWord_flush, mergeCont_empty]

theorem foldl_processSegment_eq (segs : List PSeg) (cur : Option String)
    (acc : List Chunk) :
    (segs.foldl processSegment (cur, acc)).2 =
      acc ++ (segs.map (fun s => segChunks s.words)).flatten := by
  induction segs generalizing cur acc with
  | nil => simp
  | cons s segs ih =>
    rw [List.foldl_cons, processSegment_eq, ih]
    simp

/-- Structural characterization of the merger: each source segment
contributes exactly the chunks of its maximal speaker runs (empty-text
runs dropped); runs never span source-segment boundaries. -/
theorem createSpeakerSegments_eq (segs : List PSeg) :
    createSpeakerSegments segs =
      (segs.map (fun s => segChunks s.words)).flatten := by
  unfold createSpeakerSegments
  rw [foldl_processSegment_eq]
  simp

theorem filterMap_chunkOfRun (rs : List (List Word)) :
    rs.filterMap chunkOfRun =
      (rs.filter (fun r => decide (joinWords r ≠ ""))).map chunkOfWords := by
  induction rs with
  | nil => rfl
  | cons r rs ih =>
    by_cases h : joinWords r = "" <;>
      simp [List.filterMap_cons, List.filter_cons, chunkOfRun, h, ih]

theorem segChunks_length (ws : List Word) :
    (segChunks ws).length = runCount ws := by
  rw [segChunks, filterMap_chunkOfRun, List.length_map, runCount]

/-! ## Claim C1

The claim asserts one output segment per maximal same-speaker run of the
*flattened* word sequence, with change detection carried across
source-segment boundaries.  `claimedRuns`/`claimedSegmentCount` formalise
the claim's own notion: runs over the flattened sequence, a new run
exactly when a word's speaker differs from the previous word's
(`None → None` not a change — plain inequality on optional labels). -/

def claimedRunsAcc (cur : List Word) (lastW : Word) :
    List Word → List (List Word)
  | [] => [cur]
  | w :: ws =>
    if w.speaker ≠ lastW.speaker then
      cur :: claimedRunsAcc [w] w ws
    else
      claimedRunsAcc (cur ++ [w]) w ws

def claimedRuns : List Word → List (List Word)
  | [] => []
  | w :: ws => claimedRunsAcc [w] w ws

/-- The number of output segments the claim predicts: maximal runs of
consecutive same-speaker words in the flattened word sequence, runs with
empty accumulated text excluded. -/
def claimedSegmentCount (segs : List PSeg) : Nat :=
  ((claimedRuns (segs.map PSeg.words).flatten).filter
      (fun r => decide (joinWords r ≠ ""))).length

/-- Two one-word source segments with the same speaker: the flattened
sequence has a single maximal run. -/
def c1Input : List PSeg :=
  [⟨"hi", some 0, some 1, none, [⟨"hi", 0, 1, some "A"⟩]⟩,
   ⟨"yo", some 1, some 2, none, [⟨"yo", 1, 2, some "A"⟩]⟩]

/-- Claim C1 is false as stated: on two consecutive one-word source
segments spoken by the same speaker, the flattened word sequence has one
maximal same-speaker run, but the merger emits two output segments — the
accumulated chunk is flushed at every source-segment boundary, so runs do
not carry across segment boundaries. -/
theorem c1_counterexample :
    (createSpeakerSegments c1Input).length ≠ claimedSegmentCount c1Input ∧
      (createSpeakerSegments c1Input).length = 2 ∧
      claimedSegmentCount c1Input = 1 := by
  decide

/-- Claim C1, amended: the merger produces exactly one output segment per
maximal run of consecutive same-speaker words *within each source
segment* (the chunk is flushed at each source-segment end, so runs never
span segment boundaries), where a new run starts exactly when the
previous word's speaker label is not `None` and the current word's label
differs (so neither `None → None` nor `None → X` is a change), and runs
whose accumulated text is empty are excluded. -/
theorem c1_run_count (segs : List PSeg) :
    (createSpeakerSegments segs).length =
      (segs.map (fun s => runCount s.words)).sum := by
  rw [createSpeakerSegments_eq, List.length_flatten, List.map_map]
  simp only [Function.comp_def, segChunks_length]

/-! ## Claim C6: concatenation round-trip and field postconditions -/

/-- Joining strings with single-space separators (the claim's
"space-joined" / "joined with single-space separators"). -/
def spaceJoin : List String → String
  | [] => ""
  | [x] => x
  | x :: y :: xs => x ++ " " ++ spaceJoin (y :: xs)

/-- The output segment the spec describes for one run of words: `start`
is the start time of its first word, `end` the end time of its most
recent word, `text` the words joined with single-space separators,
`speaker` the stored label of its most recent word. -/
def specChunkOfRun (r : List Word) : Chunk :=
  { text := spaceJoin (r.map Word.word)
    start := r.head?.map Word.start
    stop := r.getLast?.map Word.stop
    speaker := r.getLast?.bind Word.speaker }

theorem addWordText_ne (a x : String) (h : a ≠ "") : addWordText a x ≠ "" := by
  unfold addWordText
  rw [if_neg h]
  intro hc
  have hl := congrArg String.length hc
  rw [String.length_append, String.length_append,
    show String.length " " = 1 from rfl,
    show String.length "" = 0 from rfl] at hl
  omega

theorem foldl_addWordText_ne (l : List String) (a : String) (h : a ≠ "") :
    l.foldl addWordText a ≠ "" := by
  induction l generalizing a with
  | nil => exact h
  | cons x l ih => exact ih _ (addWordText_ne a x h)

theorem foldl_addWordText_spaceJoin (l : List String) (a : String)
    (h : a ≠ "") : l.foldl addWordText a = spaceJoin (a :: l) := by
  induction l generalizing a with
  | nil => rfl
  | cons x l ih =>
    rw [List.foldl_cons, ih (addWordText a x) (addWordText_ne a x h)]
    unfold addWordText
    rw [if_neg h]
    cases l with
    | nil => rfl
    | cons y l =>
      show (a ++ " " ++ x) ++ " " ++ spaceJoin (y :: l) =
        a ++ " " ++ (x ++ " " ++ spaceJoin (y :: l))
      simp [String.append_assoc]

theorem joinWords_ne (r : List Word) (hr : r ≠ [])
    (h : ∀ w ∈ r, w.word ≠ "") : joinWords r ≠ "" := by
  cases r with
  | nil => exact absurd rfl hr
  | cons w t =>
    show ((w :: t).map Word.word).foldl addWordText "" ≠ ""
    rw [List.map_cons, List.foldl_cons]
    exact foldl_addWordText_ne _ _ (h w (List.mem_cons_self w t))

theorem joinWords_eq_spaceJoin (r : List Word)
    (h : ∀ w ∈ r, w.word ≠ "") :
    joinWords r = spaceJoin (r.map Word.word) := by
  cases r with
  | nil => rfl
  | cons w t =>
    show ((w :: t).map Word.word).foldl addWordText "" = _
    rw [List.map_cons, List.foldl_cons]
    exact foldl_addWordText_spaceJoin _ _ (h w (List.mem_cons_self w t))

theorem chunkOfWords_concat (t : List Word) (w : Word) :
    chunkOfWords (t ++ [w]) = chunkAdd (chunkOfWords t) w := by
  unfold chunkOfWords
  rw [List.foldl_append]
  rfl

theorem chunkOfWords_stop (r : List Word) :
    (chunkOfWords r).stop = r.getLast?.map Word.stop := by
  induction r using List.reverseRecOn with
  | nil => rfl
  | append_singleton t w _ => rw [chunkOfWords_concat, List.getLast?_concat]; rfl

theorem chunkOfWords_speaker (r : List Word) :
    (chunkOfWords r).speaker = r.getLast?.bind Word.speaker := by
  induction r using List.reverseRecOn with
  | nil => rfl
  | append_singleton t w _ => rw [chunkOfWords_concat, List.getLast?_concat]; rfl

theorem foldl_chunkAdd_start (t : List Word) (c : Chunk) (s : Rat)
    (h : c.start = some s) : (t.foldl chunkAdd c).start = some s := by
  induction t generalizing c with
  | nil => exact h
  | cons w t ih => exact ih _ (by simp [chunkAdd, h])

theorem chunkOfWords_start (r : List Word) :
    (chunkOfWords r).start = r.head?.map Word.start := by
  cases r with
  | nil => rfl
  | cons w t =>
    show (List.foldl chunkAdd emptyChunk (w :: t)).start = some w.start
    rw [List.foldl_cons]
    exact foldl_chunkAdd_start t (chunkAdd emptyChunk w) w.start rfl

theorem chunkOfWords_eq_spec (r : List Word) (h : ∀ w ∈ r, w.word ≠ "") :
    chunkOfWords r = specChunkOfRun r := by
  have e1 := chunkOfWords_text r
  have e2 := chunkOfWords_start r
  have e3 := chunkOfWords_stop r
  have e4 := chunkOfWords_speaker r
  unfold specChunkOfRun
  rw [← joinWords_eq_spaceJoin r h, ← e1, ← e2, ← e3, ← e4]

theorem runsAcc_flatten (ws : List Word) (cur : List Word) (lastW : Word) :
    (runsAcc cur lastW ws).flatten = cur ++ ws := by
  induction ws generalizing cur lastW with
  | nil => simp [runsAcc]
  | cons w ws ih =>
    unfold runsAcc
    split
    · simp [ih]
    · simp [ih]

theorem wordRuns_flatten (ws : List Word) : (wordRuns ws).flatten = ws := by
  cases ws with
  | nil => rfl
  | cons w ws => simpa using runsAcc_flatten ws [w] w

theorem runsAcc_ne_nil (ws : List Word) (cur : List Word) (lastW : Word)
    (hc : cur ≠ []) : ∀ r ∈ runsAcc cur lastW ws, r ≠ [] := by
  induction ws generalizing cur lastW with
  | nil =>
    intro r hr
    rw [runsAcc, List.mem_singleton] at hr
    exact hr ▸ hc
  | cons w ws ih =>
    intro r hr
    unfold runsAcc at hr
    split at hr
    · rcases List.mem_cons.mp hr with h | h
      · exact h ▸ hc
      · exact ih [w] w (by simp) r h
    · exact ih (cur ++ [w]) w (by simp) r hr

theorem wordRuns_ne_nil (ws : List Word) : ∀ r ∈ wordRuns ws, r ≠ [] := by
  cases ws with
  | nil => intro r hr; simp [wordRuns] at hr
  | cons w ws => exact runsAcc_ne_nil ws [w] w (by simp)

theorem runsAcc_mem (ws : List Word) (cur : List Word) (lastW : Word) :
    ∀ r ∈ runsAcc cur lastW ws, ∀ x ∈ r, x ∈ cur ∨ x ∈ ws := by
  induction ws generalizing cur lastW with
  | nil =>
    intro r hr x hx
    rw [runsAcc, List.mem_singleton] at hr
    exact Or.inl (hr ▸ hx)
  | cons w ws ih =>
    intro r hr x hx
    unfold runsAcc at hr
    split at hr
    · rcases List.mem_cons.mp hr with h | h
      · exact Or.inl (h ▸ hx)
      · rcases ih [w] w r h x hx with h1 | h1
        · exact Or.inr (by simpa using Or.inl (List.mem_singleton.mp h1))
        · exact Or.inr (List.mem_cons_of_mem w h1)
    · rcases ih (cur ++ [w]) w r hr x hx with h1 | h1
      · rcases List.mem_append.mp h1 with h2 | h2
        · exact Or.inl h2
        · exact Or.inr (by simpa using Or.inl (List.mem_singleton.mp h2))
      · exact Or.inr (List.mem_cons_of_mem w h1)

theorem wordRuns_mem (ws : List Word) :
    ∀ r ∈ wordRuns ws, ∀ x ∈ r, x ∈ ws := by
  cases ws with
  | nil => intro r hr; simp [wordRuns] at hr
  | cons w ws =>
    intro r hr x hx
    rcases runsAcc_mem ws [w] w r hr x hx with h | h
    · exact (List.mem_singleton.mp h) ▸ List.mem_cons_self w ws
    · exact List.mem_cons_of_mem w h

theorem segChunks_of_ne (ws : List Word) (h : ∀ w ∈ ws, w.word ≠ "") :
    segChunks ws = (wordRuns ws).map specChunkOfRun := by
  rw [segChunks, filterMap_chunkOfRun]
  have hfil : (wordRuns ws).filter (fun r => decide (joinWords r ≠ "")) =
      wordRuns ws := by
    rw [List.filter_eq_self]
    intro r hr
    simp only [decide_eq_true_eq]
    exact joinWords_ne r (wordRuns_ne_nil ws r hr)
      (fun w hw => h w (wordRuns_mem ws r hr w hw))
  rw [hfil]
  exact List.map_congr_left
    (fun r hr => chunkOfWords_eq_spec r
      (fun w hw => h w (wordRuns_mem ws r hr w hw)))

theorem spaceJoin_append (xs ys : List String) (hx : xs ≠ []) (hy : ys ≠ []) :
    spaceJoin (xs ++ ys) = spaceJoin xs ++ " " ++ spaceJoin ys := by
  induction xs with
  | nil => exact absurd rfl hx
  | cons x xs ih =>
    cases xs with
    | nil =>
      cases ys with
      | nil => exact absurd rfl hy
      | cons y ys => rfl
    | cons x' xs' =>
      show x ++ " " ++ spaceJoin ((x' :: xs') ++ ys) = _
      rw [ih (by simp)]
      show x ++ " " ++ (spaceJoin (x' :: xs') ++ " " ++ spaceJoin ys) =
        (x ++ " " ++ spaceJoin (x' :: xs')) ++ " " ++ spaceJoin ys
      simp [String.append_assoc]

theorem spaceJoin_flatten (xss : List (List String))
    (h : ∀ xs ∈ xss, xs ≠ []) :
    spaceJoin (xss.map spaceJoin) = spaceJoin xss.flatten := by
  induction xss with
  | nil => rfl
  | cons xs xss ih =>
    cases xss with
    | nil => simp [spaceJoin]
    | cons ys xss' =>
      have hxs : xs ≠ [] := h xs (by simp)
      have hrest : ∀ zs ∈ ys :: xss', zs ≠ [] :=
        fun zs hzs => h zs (List.mem_cons_of_mem xs hzs)
      have hflat : ((ys :: xss').flatten) ≠ [] := by
        rw [List.flatten_cons]
        intro hc
        exact hrest ys (by simp) (List.append_eq_nil.mp hc).1
      show spaceJoin xs ++ " " ++ spaceJoin ((ys :: xss').map spaceJoin) =
        spaceJoin (xs ++ (ys :: xss').flatten)
      rw [ih hrest, spaceJoin_append xs ((ys :: xss').flatten) hxs hflat]

/-- A source segment whose first word has empty text: the merger drops
the empty word from the accumulated text, the claimed space-join keeps a
separator for it. -/
def c6Input : List PSeg :=
  [⟨"", none, none, none, [⟨"", 0, 1, none⟩, ⟨"b", 1, 2, none⟩]⟩]

/-- Claim C6 is false as stated: with a word whose text is empty, the
space-joined output texts do not reproduce the space-joined input word
sequence (the merger concatenates an empty first word without recording a
separator, the claimed join inserts one). -/
theorem c6_counterexample :
    spaceJoin ((createSpeakerSegments c6Input).map Chunk.text) ≠
        spaceJoin (((c6Input.map PSeg.words).flatten).map Word.word) ∧
      spaceJoin ((createSpeakerSegments c6Input).map Chunk.text) = "b" ∧
      spaceJoin (((c6Input.map PSeg.words).flatten).map Word.word) = " b" := by
  decide

/-- Claim C6, amended: for inputs in which every word's text is
non-empty, (a) the merger's output is exactly one segment per maximal
same-speaker run within each source segment, whose `text` is the run's
words joined with single-space separators, whose `start` is the start
time of the run's first word and whose `end` and stored speaker are the
end time and label of its most recent word; and (b) concatenating all
output segment texts, space-joined in order, reproduces the flattened
input word sequence joined with single-space separators. -/
theorem c6_roundtrip (segs : List PSeg)
    (h : ∀ s ∈ segs, ∀ w ∈ s.words, w.word ≠ "") :
    createSpeakerSegments segs =
        (segs.map (fun s => (wordRuns s.words).map specChunkOfRun)).flatten ∧
      spaceJoin ((createSpeakerSegments segs).map Chunk.text) =
        spaceJoin (((segs.map PSeg.words).flatten).map Word.word) := by
  have hchunks : createSpeakerSegments segs =
      (segs.map (fun s => (wordRuns s.words).map specChunkOfRun)).flatten := by
    rw [createSpeakerSegments_eq]
    congr 1
    exact List.map_congr_left (fun s hs => segChunks_of_ne s.words (h s hs))
  refine ⟨hchunks, ?_⟩
  rw [hchunks]
  have hruns : ∀ r ∈ (segs.map (fun s => wordRuns s.words)).flatten, r ≠ [] := by
    intro r hr
    rw [List.mem_flatten] at hr
    obtain ⟨l, hl, hrl⟩ := hr
    rw [List.mem_map] at hl
    obtain ⟨s, _, rfl⟩ := hl
    exact wordRuns_ne_nil s.words r hrl
  have e1 : ((segs.map (fun s => (wordRuns s.words).map specChunkOfRun)).flatten).map
        Chunk.text =
      (((segs.map (fun s => wordRuns s.words)).flatten).map
        (fun r => r.map Word.word)).map spaceJoin := by
    simp only [List.map_flatten, List.map_map, Function.comp_def, specChunkOfRun]
  rw [e1, spaceJoin_flatten]
  · congr 1
    rw [← List.map_flatten]
    congr 1
    rw [List.flatten_flatten, List.map_map]
    congr 1
    refine List.map_congr_left (fun s _ => ?_)
    simp only [Function.comp_def]
    exact wordRuns_flatten s.words
  · intro xs hxs
    rw [List.mem_map] at hxs
    obtain ⟨r, hr, rfl⟩ := hxs
    simpa [List.map_eq_nil_iff] using hruns r hr

/-- A concrete input with non-empty words and a speaker change. -/
def c6WitnessInput : List PSeg :=
  [⟨"", none, none, none,
    [⟨"hello", 0, 1, some "A"⟩, ⟨"world", 1, 2, some "A"⟩,
     ⟨"hey", 2, 3, some "B"⟩]⟩]

/-- Witness for C6 (amended): on a concrete all-non-empty input the
space-joined output texts reproduce the space-joined word sequence. -/
theorem c6_roundtrip_checked :
    spaceJoin ((createSpeakerSegments c6WitnessInput).map Chunk.text) =
      spaceJoin (((c6WitnessInput.map PSeg.words).flatten).map Word.word) :=
  (c6_roundtrip c6WitnessInput (by decide)).2

/-! ## Claim C7: idempotence of re-merging -/

/-- Treat an output segment as a single word carrying its stored speaker
label (and its text and time bounds). -/
def chunkToWord (c : Chunk) : Word :=
  ⟨c.text, c.start.getD 0, c.stop.getD 0, c.speaker⟩

/-- Re-run the merger on its own output: the output segments, read as
single words, form the word sequence of one source segment. -/
def remerge (cs : List Chunk) : List Chunk :=
  createSpeakerSegments [⟨"", none, none, none, cs.map chunkToWord⟩]

theorem createSpeakerSegments_text_ne (segs : List PSeg) :
    ∀ c ∈ createSpeakerSegments segs, c.text ≠ "" := by
  rw [createSpeakerSegments_eq]
  intro c hc
  rw [List.mem_flatten] at hc
  obtain ⟨l, hl, hcl⟩ := hc
  rw [List.mem_map] at hl
  obtain ⟨s, _, rfl⟩ := hl
  rw [segChunks, List.mem_filterMap] at hcl
  obtain ⟨r, _, hcr⟩ := hcl
  unfold chunkOfRun at hcr
  by_cases hj : joinWords r = ""
  · rw [if_pos hj] at hcr
    cases hcr
  · rw [if_neg hj] at hcr
    have hc := Option.some.inj hcr
    rw [← hc, chunkOfWords_text]
    exact hj

theorem flatten_eq_map_unmap {α β : Type} (f : α → β) :
    ∀ (rss : List (List β)) (l : List α), rss.flatten = l.map f →
      ∃ css : List (List α), css.flatten = l ∧ rss = css.map (List.map f) := by
  intro rss
  induction rss with
  | nil =>
    intro l hl
    have : l = [] := List.map_eq_nil_iff.mp hl.symm
    exact ⟨[], by simp [this], rfl⟩
  | cons r rss ih =>
    intro l hl
    obtain ⟨l1, l2, rfl, h1, h2⟩ := List.map_eq_append_iff.mp hl.symm
    obtain ⟨css, hc1, hc2⟩ := ih l2 h2.symm
    exact ⟨l1 :: css, by simp [hc1], by simp [hc2, h1]⟩

/-- Claim C7: re-running the merger on its own output — each output
segment read as one word with its stored speaker — performs no further
splitting: the second pass's outputs combine whole first-pass segments
(a partition of the first-pass output into non-empty consecutive blocks),
never fragments of one. -/
theorem c7_idempotent (segs : List PSeg) :
    ∃ blocks : List (List Chunk),
      (∀ b ∈ blocks, b ≠ []) ∧
      blocks.flatten = createSpeakerSegments segs ∧
      remerge (createSpeakerSegments segs) =
        blocks.map (fun b => chunkOfWords (b.map chunkToWord)) := by
  have htext : ∀ w ∈ (createSpeakerSegments segs).map chunkToWord,
      w.word ≠ "" := by
    intro w hw
    rw [List.mem_map] at hw
    obtain ⟨c, hc, rfl⟩ := hw
    exact createSpeakerSegments_text_ne segs c hc
  have hre : remerge (createSpeakerSegments segs) =
      (wordRuns ((createSpeakerSegments segs).map chunkToWord)).map
        chunkOfWords := by
    unfold remerge
    rw [createSpeakerSegments_eq]
    simp only [List.map_cons, List.map_nil, List.flatten_cons,
      List.flatten_nil, List.append_nil]
    rw [segChunks, filterMap_chunkOfRun]
    congr 1
    rw [List.filter_eq_self]
    intro r hr
    simp only [decide_eq_true_eq]
    exact joinWords_ne r (wordRuns_ne_nil _ r hr)
      (fun w hw => htext w (wordRuns_mem _ r hr w hw))
  obtain ⟨css, hc1, hc2⟩ :=
    flatten_eq_map_unmap chunkToWord
      (wordRuns ((createSpeakerSegments segs).map chunkToWord))
      (createSpeakerSegments segs) (wordRuns_flatten _)
  refine ⟨css, ?_, hc1, ?_⟩
  · intro b hb hbnil
    have hm : (b.map chunkToWord) ∈
        wordRuns ((createSpeakerSegments segs).map chunkToWord) := by
      rw [hc2]
      exact List.mem_map_of_mem _ hb
    exact wordRuns_ne_nil _ _ hm (by simp [hbnil])
  · rw [hre, hc2, List.map_map]
    simp [Function.comp_def]

/-! ## The job pipeline (src/job_processor.py with src/progress_tracker.py,
src/storage.py, src/transcription_service.py, src/main.py)

External collaborator behaviour (MinIO, ffprobe, Groq, whisperx, Redis
failures) is supplied by an environment `Env`; each `…Exc` field is
`some e` when the corresponding call raises an exception whose `str` is
`e`.  Progress messages that interpolate wall-clock timings or float
formatting are environment-supplied strings; all other message strings
are built exactly as the code builds them. -/

/-- Python `a or b` for optional strings: `None` and `""` are falsy. -/
def firstTruthy (a b : Option String) : Option String :=
  match a with
  | some s => if s = "" then b else some s
  | none => b

/-- Python `s[:n]`: the first `n` characters. -/
def strTake (s : String) (n : Nat) : String := ⟨s.data.take n⟩

/-- A decoded queue message.  `none` models an absent key. -/
structure JobData where
  transcriptionId : Option String
  id : Option String
  filename : Option String
  language : Option String
  model : Option String
  isSpeakerDiarized : Option Bool
  numberOfSpeaker : Option Int
deriving DecidableEq, Repr

/-- A transcription result dict: detected language (absent possible) and
the segment list. -/
structure TResult where
  language : Option String
  segments : List PSeg
deriving DecidableEq, Repr

/-- The job-result value written under the Redis result key. -/
inductive ResultData where
  | success (id : Option String) (language : String) (duration : Rat)
      (summary : Option String) (segments : List PSeg)
  | failure (id : Option String) (error : String)
deriving DecidableEq, Repr

/-- Externally visible side effects, in program order. -/
inductive Effect where
  | progress (id : Option String) (status : String) (percent : Option Rat)
      (message : String)
  | timing (id : Option String) (event : String)
  | sadd (id : Option String)
  | srem (id : Option String)
  | setResult (data : ResultData)
  | setSummaryKey (id : Option String) (segCount : Nat) (speakers : Nat)
  | summarizeCall
  | dbUpdateCompleted (id : Option String) (language : String) (duration : Rat)
  | dbInsertSeg (id : Option String) (seg : PSeg)
  | dbUpdateError (id : Option String) (error : String)
deriving DecidableEq, Repr

/-- The observable outcome of processing one job: effect trace, temp files
still on disk, and the exception (if any) escaping the processor. -/
structure RunOut where
  trace : List Effect
  temps : List String
  escaped : Option String
deriving DecidableEq, Repr

/-- Whether a progress event with the given status occurs in a trace. -/
def statusReported (tr : List Effect) (st : String) : Bool :=
  tr.any fun e =>
    match e with
    | .progress _ s _ _ => decide (s = st)
    | _ => false

/-- Messages of the `error`-status progress events of a trace. -/
def errorMessages (tr : List Effect) : List String :=
  tr.filterMap fun e =>
    match e with
    | .progress _ "error" _ m => some m
    | _ => none

/-- Segment lists of the success results persisted in a trace. -/
def persistedSuccessSegments (tr : List Effect) : List (List PSeg) :=
  tr.filterMap fun e =>
    match e with
    | .setResult (.success _ _ _ _ segs) => some segs
    | _ => none

/-- `TranscriptionService.get_speaker_count`: distinct truthy speaker
labels. -/
def speakerCount (segs : List PSeg) : Nat :=
  (((segs.filterMap PSeg.speaker).filter (fun s => decide (s ≠ ""))).dedup).length

/-- Environment: outcomes of the external collaborator calls made while
processing one job in the `JobProcessor` pipeline. -/
structure Env where
  tempPath : String
  downloadExc : Option String
  audioDuration : Rat
  transcribeResult : TResult
  assignedSegments : List PSeg
  diarizeExc : Option String
  summarizeExc : Option String
  summaryText : String
  saveSetExc : Option String
  errorSetExc : Option String
  cleanupOk : Bool
  msgProcessing : String
  msgAnalyzing : String
  msgPostProcessing : String
  msgFinalizing : String
  msgSummaryComplete : String
  msgCompleted : String
deriving Repr

/-- Attributes of `TranscriptionService`: its methods and the instance
attributes assigned in `__init__`. -/
def transcriptionServiceAttrs : List String :=
  ["__init__", "transcribe", "_transcribe_with_groq", "_transcribe_with_local",
   "perform_diarization", "_create_speaker_segments", "get_speaker_count",
   "summarize_transcription", "provider", "groq_client", "local_model_cache"]

/-- The attribute name `JobProcessor._transcribe_audio` looks up on the
service object (line 88: `self.transcription.transcribe_with_groq(...)`). -/
def transcribeCallName : String := "transcribe_with_groq"

def attributeErrorText (name : String) : String :=
  "'TranscriptionService' object has no attribute '" ++ name ++ "'"

/-- Python attribute lookup on the service: `AttributeError` when the
name is not defined. -/
def getattrService (name : String) : Except String Unit :=
  if name ∈ transcriptionServiceAttrs then .ok ()
  else .error (attributeErrorText name)

/-- `TranscriptionService.perform_diarization`: the whisperx steps are
external; on success the merger runs over the speaker-assigned segments;
any exception is caught and returned alongside the original result. -/
def performDiarization (env : Env) (result : TResult) :
    TResult × Option String :=
  match env.diarizeExc with
  | some e => (result, some e)
  | none =>
    ({ result with
        segments := (createSpeakerSegments env.assignedSegments).map chunkToPSeg },
      none)

/-- `TranscriptionService.summarize_transcription`: catches internally;
returns `(summary, None)` or `(None, "Summarization failed: " + str(e))`. -/
def summarizeTranscription (env : Env) : Option String × Option String :=
  match env.summarizeExc with
  | some e => (none, some ("Summarization failed: " ++ e))
  | none => (some env.summaryText, none)

/-- `JobProcessor._perform_diarization`: report `diarizing`, run the
service call; a returned error is reported as `diarize_failed` with the
reason truncated to 100 characters and the job continues. -/
def performDiarizationStage (env : Env) (tid : Option String)
    (result : TResult) : TResult × List Effect :=
  let tr := [Effect.progress tid "diarizing" (some 70)
    "Identifying speakers in audio"]
  let r := performDiarization env result
  match r.2 with
  | some e =>
    (r.1, tr ++ [.progress tid "diarize_failed" (some 75)
      ("Speaker identification failed: " ++ strTake e 100)])
  | none =>
    (r.1, tr ++ [.progress tid "finalizing" (some 85) env.msgFinalizing,
      .timing tid "diarization_complete"])

/-- `JobProcessor._generate_summary`: skipped below the 500-character
threshold, otherwise the summarizer is invoked; a summarizer error is
reported as `summary_failed` (reason truncated to 100 characters) and the
summary stays absent. -/
def generateSummary (env : Env) (tid : Option String) (segs : List PSeg) :
    Option String × List Effect :=
  let total := (segs.map (fun s => s.text.length)).sum
  if total < 500 then
    (none, [.progress tid "summary_skipped" (some 92)
      "Skipping summary - transcript too short"])
  else
    let tr := [Effect.progress tid "summarizing" (some 90)
        ("Generating summary from " ++ toString segs.length ++ " segments"),
      .summarizeCall]
    match summarizeTranscription env with
    | (_, some err) =>
      (none, tr ++ [.progress tid "summary_failed" (some 92)
        ("Summary generation failed: " ++ strTake err 100)])
    | (s, none) =>
      (s, tr ++ [.timing tid "summarization_complete",
        .progress tid "summary_complete" (some 94) env.msgSummaryComplete])

/-- `JobProcessor._save_results`: report `saving`, then write the result
dict — language, duration, summary and the segments *verbatim* — under
the Redis result key.  A raising Redis write propagates. -/
def saveResults (env : Env) (tid : Option String) (result : TResult)
    (language : String) (duration : Rat) (summary : Option String) :
    Option String × List Effect :=
  let tr := [Effect.progress tid "saving" (some 95)
    ("Saving transcription and " ++ toString result.segments.length ++
      " segments to Redis")]
  match env.saveSetExc with
  | some e => (some e, tr)
  | none =>
    (none, tr ++ [.setResult (.success tid language duration summary
      result.segments)])

/-- `JobProcessor._complete_job` with `ProgressTracker.complete_job`:
total-duration timing, removal from the active set, completion timing,
job-statistics summary key, final `completed` progress event. -/
def completeJob (env : Env) (tid : Option String) (result : TResult) :
    List Effect :=
  [.timing tid "total_duration",
   .srem tid, .timing tid "completion_time",
   .setSummaryKey tid result.segments.length (speakerCount result.segments),
   .progress tid "completed" (some 100) env.msgCompleted]

/-- `JobProcessor._handle_error` with `ProgressTracker.handle_error`:
error progress event (message `"Error: "` + text truncated to 200
characters), removal from the active set, error timing, then an
*unprotected* Redis write of `{id, status: "error", error}` — if that
write raises, the new exception escapes the job processor.  Temp files
are not touched. -/
def handleError (env : Env) (tid : Option String) (tr : List Effect)
    (temps : List String) (e : String) : RunOut :=
  let msg := strTake e 200
  let tr := tr ++ [.progress tid "error" none ("Error: " ++ msg),
    .srem tid, .timing tid "error_time"]
  match env.errorSetExc with
  | some e2 => ⟨tr, temps, some e2⟩
  | none => ⟨tr ++ [.setResult (.failure tid msg)], temps, none⟩

/-- The pipeline tail after a successful transcription (lines 43–59 of
process_transcription_job): language fallback, optional diarization,
summary, save, completion, temp-file cleanup.  Only the save-stage Redis
write can raise here. -/
def afterTranscribe (env : Env) (jd : JobData) (tid : Option String)
    (tr : List Effect) (temps : List String) (result : TResult) : RunOut :=
  let detectedLanguage := result.language.getD
    ((firstTruthy jd.language (some "unknown")).getD "unknown")
  let r1 :=
    if jd.isSpeakerDiarized.getD false then
      performDiarizationStage env tid result
    else (result, [])
  let result := r1.1
  let tr := tr ++ r1.2
  let r2 := generateSummary env tid result.segments
  let summary := r2.1
  let tr := tr ++ r2.2
  let r3 := saveResults env tid result detectedLanguage env.audioDuration summary
  let tr := tr ++ r3.2
  match r3.1 with
  | some e => handleError env tid tr temps e
  | none =>
    let tr := tr ++ completeJob env tid result
    let temps := if env.cleanupOk then
        temps.filter (fun p => decide (p ≠ env.tempPath))
      else temps
    ⟨tr, temps, none⟩

/-- `JobProcessor.process_transcription_job`.  The `filename`
destructuring precedes the `try` block, so a missing key escapes before
any effect.  The transcribe stage performs the `transcribe_with_groq`
attribute lookup; the `.ok` branch models the code that would run had the
lookup succeeded, with the transcription result drawn from the
environment. -/
def processTranscriptionJob (env : Env) (jd : JobData) : RunOut :=
  let tid := firstTruthy jd.transcriptionId jd.id
  match jd.filename with
  | none => ⟨[], [], some "KeyError: 'filename'"⟩
  | some fn =>
    let tr := [Effect.timing tid "start_time", .sadd tid,
      .progress tid "started" (some 0) ("Starting transcription of " ++ fn),
      .progress tid "downloading" (some 5) ("Downloading audio file " ++ fn)]
    let temps := [env.tempPath]
    match env.downloadExc with
    | some e => handleError env tid tr temps e
    | none =>
      let tr := tr ++ [Effect.timing tid "download_complete",
        .progress tid "processing" (some 10) env.msgProcessing,
        .progress tid "analyzing" (some 15) env.msgAnalyzing,
        .progress tid "loading_model" (some 20)
          "Preparing Groq Whisper-Large-V3-Turbo",
        .progress tid "transcribing" (some 25)
          "Sending audio to Groq for transcription"]
      match getattrService transcribeCallName with
      | .error e => handleError env tid tr temps e
      | .ok _ =>
        let tr := tr ++ [Effect.timing tid "transcription_complete",
          .progress tid "post_processing" (some 65) env.msgPostProcessing]
        afterTranscribe env jd tid tr temps env.transcribeResult

inductive LoopStep where
  | continued
  | stopped
deriving DecidableEq, Repr

/-- One iteration of the consumer loop in `main.py`: any exception
escaping the job processor is caught, the loop sleeps two seconds and
continues (`KeyboardInterrupt`, an external signal, is outside the
model). -/
def mainIteration (env : Env) (jd : JobData) : LoopStep × RunOut :=
  (LoopStep.continued, processTranscriptionJob env jd)

/-- A benign environment: every external call succeeds. -/
def baseEnv : Env :=
  { tempPath := "/tmp/audio.tmp"
    downloadExc := none
    audioDuration := 7
    transcribeResult := ⟨some "en", []⟩
    assignedSegments := []
    diarizeExc := none
    summarizeExc := none
    summaryText := "the summary"
    saveSetExc := none
    errorSetExc := none
    cleanupOk := true
    msgProcessing := "m-processing"
    msgAnalyzing := "m-analyzing"
    msgPostProcessing := "m-post"
    msgFinalizing := "m-finalizing"
    msgSummaryComplete := "m-summary"
    msgCompleted := "m-completed" }

/-! ## Claim C2 -/

/-- Claim C2: the transcribe stage looks up `transcribe_with_groq`, which
`TranscriptionService` does not define (`transcribe`,
`_transcribe_with_groq`, `_transcribe_with_local` are its transcription
entry points), so the call raises `AttributeError`; consequently every
job that reaches the transcribing stage ends in the error state, and
`completed` is unreachable through the JobProcessor pipeline. -/
theorem c2_transcribe_attribute_error :
    transcribeCallName ∉ transcriptionServiceAttrs ∧
    getattrService transcribeCallName =
      Except.error (attributeErrorText transcribeCallName) ∧
    ∀ (env : Env) (jd : JobData),
      statusReported (processTranscriptionJob env jd).trace "completed" = false ∧
      (statusReported (processTranscriptionJob env jd).trace "transcribing" = true →
        statusReported (processTranscriptionJob env jd).trace "error" = true) := by
  refine ⟨by decide, rfl, ?_⟩
  intro env jd
  obtain ⟨tp, dex, ad, tres, asg, diex, sumex, sumtxt, ssx, esx, cok,
    m1, m2, m3, m4, m5, m6⟩ := env
  obtain ⟨tidA, tidB, fn, lang, mdl, dia, nsp⟩ := jd
  cases fn with
  | none => exact ⟨rfl, fun h => nomatch h⟩
  | some fn =>
    cases dex with
    | some e =>
      cases esx with
      | some e2 => exact ⟨rfl, fun h => nomatch h⟩
      | none => exact ⟨rfl, fun h => nomatch h⟩
    | none =>
      cases esx with
      | some e2 => exact ⟨rfl, fun _ => rfl⟩
      | none => exact ⟨rfl, fun _ => rfl⟩

def c2WitnessJob : JobData :=
  ⟨some "w2", none, some "w2.mp3", none, none, none, none⟩

/-- Witness for C2: a concrete job that reaches the transcribing stage
and ends in the error state. -/
theorem c2_transcribe_attribute_error_witness :
    statusReported (processTranscriptionJob baseEnv c2WitnessJob).trace
        "transcribing" = true ∧
      statusReported (processTranscriptionJob baseEnv c2WitnessJob).trace
        "error" = true :=
  ⟨by decide,
   (c2_transcribe_attribute_error.2.2 baseEnv c2WitnessJob).2 (by decide)⟩

/-! ## Claim C3 (code bug: the diarize-failure path is unreachable) -/

/-- The example job of spec §8, with diarization requested. -/
def specExampleJob : JobData :=
  ⟨none, some "abc", some "call.mp3", none, none, some true, none⟩

def c3Env : Env := { baseEnv with diarizeExc := some "diarization pipeline failed" }

/-- Claim C3 records intended behaviour, but the code errors at the
transcribe stage (`transcribe_with_groq`, see C2) before the diarization
stage can run: on the spec's own example job with a failing diarizer, no
`diarizing` or `diarize_failed` event is ever reported and the job ends
in `error`, not `completed`. -/
theorem c3_error_before_diarization :
    statusReported (processTranscriptionJob c3Env specExampleJob).trace
        "diarizing" = false ∧
      statusReported (processTranscriptionJob c3Env specExampleJob).trace
        "diarize_failed" = false ∧
      statusReported (processTranscriptionJob c3Env specExampleJob).trace
        "error" = true ∧
      statusReported (processTranscriptionJob c3Env specExampleJob).trace
        "completed" = false ∧
      errorMessages (processTranscriptionJob c3Env specExampleJob).trace =
        ["Error: " ++ attributeErrorText "transcribe_with_groq"] := by
  decide

/-! ## Claim C5 -/

def c5Job : JobData := ⟨some "j5", none, some "e.mp3", none, none, none, none⟩

def c5DownloadEnv : Env := { baseEnv with downloadExc := some "boom" }

def c5RedisDownEnv : Env :=
  { baseEnv with downloadExc := some "boom", errorSetExc := some "redis down" }

/-- Claim C5 is false as stated: (a) the reported error-event message is
`"Error: "` followed by the truncated exception text, not the truncated
text itself; (b) a secondary failure while persisting the error result is
*not* swallowed — it escapes the job processor (the consumer loop then
catches it). -/
theorem c5_counterexample :
    (errorMessages (processTranscriptionJob c5DownloadEnv c5Job).trace =
        ["Error: boom"] ∧
      strTake "boom" 200 = "boom" ∧
      ("Error: boom" : String) ≠ "boom") ∧
    (processTranscriptionJob c5RedisDownEnv c5Job).escaped =
      some "redis down" := by
  decide

/-- Claim C5, amended: on a fatal stage exception the handler reports an
error progress event whose message is `"Error: "` followed by the
exception text truncated to 200 characters, removes the job from the
active set, records error timing, and best-effort persists
`{id, status: "error", error}`; a secondary failure during that
persistence escapes the job processor (it is not swallowed there), but
the consumer loop catches every such exception and continues — the
process is never terminated. -/
theorem c5_error_contract :
    (∀ (env : Env) (tid : Option String) (tr : List Effect)
        (temps : List String) (e : String),
      (handleError env tid tr temps e).trace =
          tr ++ [.progress tid "error" none ("Error: " ++ strTake e 200),
            .srem tid, .timing tid "error_time"] ++
            (match env.errorSetExc with
             | some _ => []
             | none => [.setResult (.failure tid (strTake e 200))]) ∧
        (handleError env tid tr temps e).escaped = env.errorSetExc ∧
        (handleError env tid tr temps e).temps = temps) ∧
    ∀ (env : Env) (jd : JobData), (mainIteration env jd).1 = LoopStep.continued := by
  constructor
  · intro env tid tr temps e
    cases h : env.errorSetExc <;> simp [handleError, h]
  · intro env jd
    rfl

/-! ## Claim C8 -/

/-- Claim C8: the summarize stage is skipped (`summary_skipped` reported,
summary absent, summarizer not invoked) iff the total transcript
character length — the sum of the segment text lengths — is strictly
below 500; at 500 or more the summarizer is invoked. -/
theorem c8_summary_threshold (env : Env) (tid : Option String)
    (segs : List PSeg) :
    (statusReported (generateSummary env tid segs).2 "summary_skipped" = true ↔
      (segs.map (fun s => s.text.length)).sum < 500) ∧
    ((segs.map (fun s => s.text.length)).sum < 500 →
      (generateSummary env tid segs).1 = none ∧
        Effect.summarizeCall ∉ (generateSummary env tid segs).2) ∧
    (500 ≤ (segs.map (fun s => s.text.length)).sum →
      Effect.summarizeCall ∈ (generateSummary env tid segs).2) := by
  by_cases h : (segs.map (fun s => s.text.length)).sum < 500
  · refine ⟨?_, fun _ => ?_, fun h5 => absurd h (not_lt.mpr h5)⟩
    · simp [generateSummary, h, statusReported]
    · simp [generateSummary, h]
  · refine ⟨?_, fun h5 => absurd h5 h, fun _ => ?_⟩
    · cases hs : env.summarizeExc <;>
        simp [generateSummary, h, statusReported, summarizeTranscription, hs]
    · cases hs : env.summarizeExc <;>
        simp [generateSummary, h, summarizeTranscription, hs]

def seg499 : PSeg := ⟨⟨List.replicate 499 'a'⟩, some 0, some 1, none, []⟩

def seg500 : PSeg := ⟨⟨List.replicate 500 'a'⟩, some 0, some 1, none, []⟩

set_option maxRecDepth 8192 in
/-- Witness for C8 at the boundary: a 499-character transcript skips
summarization, a 500-character transcript attempts it. -/
theorem c8_summary_threshold_boundary :
    statusReported (generateSummary baseEnv (some "j8") [seg499]).2
        "summary_skipped" = true ∧
      Effect.summarizeCall ∈ (generateSummary baseEnv (some "j8") [seg500]).2 :=
  ⟨(c8_summary_threshold baseEnv (some "j8") [seg499]).1.mpr (by decide),
   (c8_summary_threshold baseEnv (some "j8") [seg500]).2.2 (by decide)⟩

/-! ## Claim C9 -/

def c9NoSpeakerSeg : PSeg := ⟨"hello there", some 0, some 2, none, []⟩

/-- The defaulting the claim asserts: a segment lacking a speaker label
is given `"Speaker 1"`. -/
def claimDefaultSpeaker (s : PSeg) : PSeg :=
  { s with speaker := some (s.speaker.getD "Speaker 1") }

def c9Job : JobData := ⟨some "j9", none, some "b.mp3", none, none, some false, none⟩

/-- Claim C9 is false as stated: without diarization the persisted job
result contains the transcription segments verbatim, and a segment
lacking a speaker label is persisted *without* one — no `"Speaker 1"`
default is applied in the persisted result. -/
theorem c9_counterexample :
    persistedSuccessSegments
        (afterTranscribe baseEnv c9Job (some "j9") [] ["/tmp/audio.tmp"]
          ⟨some "en", [c9NoSpeakerSeg]⟩).trace = [[c9NoSpeakerSeg]] ∧
      [c9NoSpeakerSeg].map claimDefaultSpeaker ≠ [c9NoSpeakerSeg] := by
  decide

theorem persistedSuccessSegments_append (a b : List Effect) :
    persistedSuccessSegments (a ++ b) =
      persistedSuccessSegments a ++ persistedSuccessSegments b :=
  List.filterMap_append a b _

theorem generateSummary_no_setResult (env : Env) (tid : Option String)
    (segs : List PSeg) :
    persistedSuccessSegments (generateSummary env tid segs).2 = [] := by
  by_cases h : (segs.map (fun s => s.text.length)).sum < 500
  · simp [generateSummary, h, persistedSuccessSegments]
  · cases hs : env.summarizeExc <;>
      simp [generateSummary, h, summarizeTranscription, hs,
        persistedSuccessSegments]

/-- Claim C9, amended: without diarization requested, the persisted job
result's segments are exactly the verbatim transcription segments —
unchanged in text, start, end and order — with missing speaker labels
left absent: no `"Speaker 1"` defaulting occurs in this persistence path
(that default exists only in the segment-insertion code of the separate
database layer, which this pipeline does not invoke). -/
theorem c9_verbatim (env : Env) (jd : JobData) (tid : Option String)
    (temps : List String) (result : TResult)
    (hdia : jd.isSpeakerDiarized.getD false = false)
    (hsave : env.saveSetExc = none) :
    persistedSuccessSegments
        (afterTranscribe env jd tid [] temps result).trace =
      [result.segments] := by
  unfold afterTranscribe saveResults
  rw [hdia, hsave]
  simp [persistedSuccessSegments_append, generateSummary_no_setResult,
    completeJob]
  simp [persistedSuccessSegments]

/-- Witness for C9 (amended): a concrete no-diarization job whose single
speakerless segment is persisted verbatim. -/
theorem c9_verbatim_witness :
    persistedSuccessSegments
        (afterTranscribe baseEnv c9Job (some "w9") [] []
          ⟨none, [c9NoSpeakerSeg]⟩).trace = [[c9NoSpeakerSeg]] :=
  c9_verbatim baseEnv c9Job (some "w9") [] ⟨none, [c9NoSpeakerSeg]⟩
    (by decide) rfl

/-! ## Claim C10 -/

def c10Job : JobData := ⟨some "j10", none, none, none, none, none, none⟩

/-- Claim C10: a dequeued message without the filename key raises during
destructuring — before any progress event, before the job id joins the
active set, and before any result or timing record is stored (the effect
trace is empty and no temp file exists); the consumer loop absorbs the
exception, sleeps briefly and continues. -/
theorem c10_malformed_message (env : Env) (jd : JobData)
    (h : jd.filename = none) :
    processTranscriptionJob env jd = ⟨[], [], some "KeyError: 'filename'"⟩ ∧
      (mainIteration env jd).1 = LoopStep.continued := by
  refine ⟨?_, rfl⟩
  unfold processTranscriptionJob
  rw [h]

/-- Witness for C10: a concrete message with no `filename` key. -/
theorem c10_malformed_message_witness :
    processTranscriptionJob baseEnv c10Job =
        ⟨[], [], some "KeyError: 'filename'"⟩ ∧
      (mainIteration baseEnv c10Job).1 = LoopStep.continued :=
  c10_malformed_message baseEnv c10Job rfl

/-! ## The stand-alone worker loop (worker.py)

The same pipeline with inline stages.  Differences from the JobProcessor
pipeline that matter here: its transcribe call exists (whisperx, an
external collaborator), diarization always runs, `filename` is read
inside the `try`, results go to PostgreSQL, and the error handler wraps
its DB update in its own `try/except pass`. -/

/-- Environment for one worker.py loop iteration. -/
structure WEnv where
  tempPath : String
  downloadExc : Option String
  audioDuration : Rat
  modelExc : Option String
  transcribeExc : Option String
  transcribeResult : TResult
  assignedSegments : List PSeg
  diarizeExc : Option String
  dbUpdateExc : Option String
  insertExc : Option String
  errorDbExc : Option String
  cleanupOk : Bool
  msgProcessing : String
  msgAnalyzing : String
  msgModelLoaded : String
  msgPostProcessing : String
  msgFinalizing : String
  msgCompleted : String
deriving Repr

/-- worker.py's `except` handler: error progress (`"Error: "` prefix, 200
characters), removal from the active set, error timing, and a DB error
update wrapped in its own `try/except: pass` (a failure there is
swallowed).  The temp file is not removed; the loop sleeps and
continues. -/
def workerHandleError (env : WEnv) (tid : Option String) (tr : List Effect)
    (temps : List String) (e : String) : RunOut :=
  let msg := strTake e 200
  let tr := tr ++ [.progress tid "error" none ("Error: " ++ msg),
    .srem tid, .timing tid "error_time"]
  match env.errorDbExc with
  | some _ => ⟨tr, temps, none⟩
  | none => ⟨tr ++ [.dbUpdateError tid msg], temps, none⟩

/-- The segment INSERT loop: a periodic `saving` progress update every 20
segments for results of more than 50 segments, then the row insert. -/
def insertEffects (tid : Option String) (segs : List PSeg) : List Effect :=
  segs.enum.flatMap fun p =>
    (if p.1 % 20 = 0 ∧ segs.length > 50 then
      [Effect.progress tid "saving"
        (some (90 + (p.1 : Rat) / (segs.length : Rat) * 9))
        ("Saving segment " ++ toString (p.1 + 1) ++ "/" ++
          toString segs.length)]
    else []) ++ [Effect.dbInsertSeg tid p.2]

/-- One iteration of the worker.py loop body, from a decoded job message.
`transcription_id` is read before `filename`, and both inside the `try`,
so a missing filename key reaches the error handler.  `speaker_count`
exists only when diarization succeeded (the `locals()` test); on the
failure path the job summary uses 1. -/
def workerIteration (env : WEnv) (jd : JobData) : RunOut :=
  let tid := firstTruthy jd.transcriptionId jd.id
  match jd.filename with
  | none => workerHandleError env tid [] [] "KeyError: 'filename'"
  | some fn =>
    let tr := [Effect.timing tid "start_time",
      .progress tid "started" (some 0) ("Starting transcription of " ++ fn),
      .sadd tid,
      .progress tid "downloading" (some 5) ("Downloading audio file " ++ fn)]
    let temps := [env.tempPath]
    match env.downloadExc with
    | some e => workerHandleError env tid tr temps e
    | none =>
      let tr := tr ++ [Effect.timing tid "download_complete",
        .progress tid "processing" (some 10) env.msgProcessing,
        .progress tid "analyzing" (some 15) env.msgAnalyzing,
        .progress tid "loading_model" (some 20)
          "Loading WhisperX transcription model"]
      match env.modelExc with
      | some e => workerHandleError env tid tr temps e
      | none =>
        let tr := tr ++ [Effect.timing tid "model_loaded",
          .progress tid "transcribing" (some 25) env.msgModelLoaded]
        match env.transcribeExc with
        | some e => workerHandleError env tid tr temps e
        | none =>
          let result := env.transcribeResult
          let detectedLanguage := result.language.getD "unknown"
          let tr := tr ++ [Effect.timing tid "transcription_complete",
            .progress tid "post_processing" (some 65) env.msgPostProcessing,
            .progress tid "diarizing" (some 70) "Identifying speakers in audio"]
          let r1 :=
            match env.diarizeExc with
            | some e =>
              (result, 1,
                tr ++ [Effect.progress tid "diarize_failed" (some 75)
                  ("Speaker identification failed: " ++ strTake e 100)])
            | none =>
              let merged :=
                (createSpeakerSegments env.assignedSegments).map chunkToPSeg
              ({ result with segments := merged }, speakerCount merged,
                tr ++ [Effect.progress tid "processing" (some 80)
                    "Creating speaker-based segments",
                  .progress tid "finalizing" (some 85) env.msgFinalizing,
                  .timing tid "diarization_complete"])
          let result := r1.1
          let speakers := r1.2.1
          let tr := r1.2.2
          let segs := result.segments
          let tr := tr ++ [Effect.progress tid "saving" (some 90)
            ("Saving " ++ toString segs.length ++
              " transcript segments to database")]
          match env.dbUpdateExc with
          | some e => workerHandleError env tid tr temps e
          | none =>
            let tr := tr ++ [Effect.dbUpdateCompleted tid detectedLanguage
              env.audioDuration]
            match env.insertExc with
            | some e => workerHandleError env tid tr temps e
            | none =>
              let tr := tr ++ insertEffects tid segs
              let tr := tr ++ [Effect.timing tid "completion_time",
                .timing tid "total_duration",
                .setSummaryKey tid segs.length speakers,
                .progress tid "completed" (some 100) env.msgCompleted,
                .srem tid]
              let temps := if env.cleanupOk then
                  temps.filter (fun p => decide (p ≠ env.tempPath))
                else temps
              ⟨tr, temps, none⟩

/-! ## Claim C4 -/

def c4Job : JobData := ⟨some "j4", none, some "c.mp3", none, none, none, none⟩

/-- A worker environment in which every external call succeeds. -/
def baseWEnv : WEnv :=
  { tempPath := "/tmp/aud.tmp"
    downloadExc := none
    audioDuration := 5
    modelExc := none
    transcribeExc := none
    transcribeResult := ⟨some "en", [⟨"hi", some 0, some 1, none, []⟩]⟩
    assignedSegments := [⟨"hi", some 0, some 1, none, [⟨"hi", 0, 1, some "A"⟩]⟩]
    diarizeExc := none
    dbUpdateExc := none
    insertExc := none
    errorDbExc := none
    cleanupOk := true
    msgProcessing := "m1"
    msgAnalyzing := "m2"
    msgModelLoaded := "m3"
    msgPostProcessing := "m4"
    msgFinalizing := "m5"
    msgCompleted := "m6" }

def c4FailEnv : WEnv := { baseWEnv with transcribeExc := some "asr error" }

def c4DownloadFailEnv : WEnv := { baseWEnv with downloadExc := some "minio down" }

/-- Claim C4 is false as stated: when a stage after the download fails,
the error exit path performs no cleanup and the temp file remains on disk
at job end; a failed download also leaves the just-created temp file on
disk (the file is created before the fetch). -/
theorem c4_counterexample :
    ((workerIteration c4FailEnv c4Job).temps = ["/tmp/aud.tmp"] ∧
      statusReported (workerIteration c4FailEnv c4Job).trace "error" = true) ∧
    ((workerIteration c4DownloadFailEnv c4Job).temps = ["/tmp/aud.tmp"] ∧
      statusReported (workerIteration c4DownloadFailEnv c4Job).trace
        "error" = true) := by
  decide

/-- Claim C4, amended: the temp file is removed only on the success path
(after `completed`, when the remove call itself succeeds); on every exit
path on which some stage call failed — the download itself, or any stage
after the download created the file — the file remains on disk at job
end, and the handler reports the error state. -/
theorem c4_cleanup (env : WEnv) (jd : JobData) (fn : String)
    (hfn : jd.filename = some fn) (hclean : env.cleanupOk = true) :
    ((env.downloadExc = none ∧ env.modelExc = none ∧
        env.transcribeExc = none ∧ env.dbUpdateExc = none ∧
        env.insertExc = none) →
      (workerIteration env jd).temps = []) ∧
    (¬ (env.downloadExc = none ∧ env.modelExc = none ∧
        env.transcribeExc = none ∧ env.dbUpdateExc = none ∧
        env.insertExc = none) →
      statusReported (workerIteration env jd).trace "error" = true ∧
        (workerIteration env jd).temps = [env.tempPath]) := by
  obtain ⟨tp, dex, ad, mex, tex, tres, asg, diex, dbex, inex, edbx, cok,
    m1, m2, m3, m4, m5, m6⟩ := env
  subst hclean
  obtain ⟨tidA, tidB, jfn, lang, mdl, dia, nsp⟩ := jd
  cases jfn with
  | none => exact absurd hfn (by simp)
  | some jfn =>
    cases dex with
    | some e =>
      refine ⟨(fun h => nomatch h.1), fun _ => ?_⟩
      cases edbx <;> exact ⟨rfl, rfl⟩
    | none =>
      cases mex with
      | some e =>
        refine ⟨(fun h => nomatch h.2.1), fun _ => ?_⟩
        cases edbx <;> exact ⟨rfl, rfl⟩
      | none =>
        cases tex with
        | some e =>
          refine ⟨(fun h => nomatch h.2.2.1), fun _ => ?_⟩
          cases edbx <;> exact ⟨rfl, rfl⟩
        | none =>
          cases dbex with
          | some e =>
            refine ⟨(fun h => nomatch h.2.2.2.1), fun _ => ?_⟩
            cases diex <;> cases edbx <;> exact ⟨rfl, rfl⟩
          | none =>
            cases inex with
            | some e =>
              refine ⟨(fun h => nomatch h.2.2.2.2), fun _ => ?_⟩
              cases diex <;> cases edbx <;> exact ⟨rfl, rfl⟩
            | none =>
              refine ⟨fun _ => ?_, fun h => absurd ⟨rfl, rfl, rfl, rfl, rfl⟩ h⟩
              cases diex with
              | some e =>
                show List.filter (fun p => decide (p ≠ tp)) [tp] = []
                simp
              | none =>
                show List.filter (fun p => decide (p ≠ tp)) [tp] = []
                simp

/-- Witness for C4 (amended): a concrete successful job ends with no temp
file on disk and `completed` reported; a concrete job whose transcription
call raises ends with the temp file still on disk and `error` reported. -/
theorem c4_cleanup_checked :
    (workerIteration baseWEnv c4Job).temps = [] ∧
      statusReported (workerIteration baseWEnv c4Job).trace "completed" = true ∧
      (workerIteration c4FailEnv c4Job).temps = ["/tmp/aud.tmp"] ∧
      statusReported (workerIteration c4FailEnv c4Job).trace "error" = true :=
  ⟨(c4_cleanup baseWEnv c4Job "c.mp3" rfl rfl).1 ⟨rfl, rfl, rfl, rfl, rfl⟩,
   by decide,
   ((c4_cleanup c4FailEnv c4Job "c.mp3" rfl rfl).2
     (fun h => nomatch h.2.2.1)).2,
   ((c4_cleanup c4FailEnv c4Job "c.mp3" rfl rfl).2
     (fun h => nomatch h.2.2.1)).1⟩

end Skriptor
